import Mathlib

/-!
Verification of the marisa-rs binding layer (`src/lib.rs`) against its
natural-language specification.

Modelling conventions:
* Rust byte strings (`&str` contents) are `List Nat`, one entry per byte.
* `u32`, `f32` and the 4-byte `marisa_Key_Union` are modelled by their 32-bit
  patterns as `Nat`, reduced `% 2^32` where the source truncates.  No code in
  the repository performs floating-point arithmetic: weights are only stored
  and read back, so representing an `f32` by its bit pattern is faithful.
  `f32_bits_one` is the IEEE-754 single-precision pattern of `1.0`.
* A Rust panic (a failed `CString::new(...).expect(...)`, or a slice
  bounds-check failure) is modelled by `Option.none` / `AtResult.panic`.
* The wrapped C++ engine (`marisa_Keyset::push_back3`, `reset`, `clear`,
  `marisa_Trie::build`, `num_keys`) is not part of this repository; those
  operations are modelled from the spec and marked as such in doc comments.
-/

/-- The 32-bit IEEE-754 single-precision pattern of the value `1.0`
(the default weight used by `Keyset::push`). -/
def f32_bits_one : Nat := 0x3F800000

/-- The 32-bit IEEE-754 single-precision pattern of `0.8f32`. -/
def f32_bits_08 : Nat := 0x3F4CCCCD

/-- The 32-bit IEEE-754 single-precision pattern of `0.5f32`. -/
def f32_bits_05 : Nat := 0x3F000000

/-- Embedding of the bindgen struct `marisa_Key` (`ptr_`, `length_`,
`union_`).  `ptr_` is the byte buffer the pointer addresses (`none` models a
null pointer); `length_` is the `u32` length field; `union_` is the 4-byte
union holding either a `u32` id or an `f32` weight, modelled by its 32-bit
pattern. -/
structure marisa_Key where
  ptr_ : Option (List Nat)
  length_ : Nat
  union_ : Nat
deriving DecidableEq, Repr

/-- Embedding of `marisa::Key` in `src/lib.rs`: a `marisa_Key` plus the
`drop` ownership flag. -/
structure Key where
  key : marisa_Key
  drop : Bool
deriving DecidableEq, Repr

namespace utils

/-- Embedding of `utils::to_raw`: `CString::new(key)` fails (and the
`expect` panics, modelled by `none`) when the byte string contains a NUL
byte; otherwise it returns the NUL-terminated buffer together with
`as_bytes_with_nul().len()`, which counts the appended terminator. -/
def to_raw (key : List Nat) : Option (List Nat × Nat) :=
  if 0 ∈ key then none
  else some (key ++ [0], key.length + 1)

end utils

namespace Key

/-- Embedding of `impl Default for Key`: null pointer, zero length, union
pattern `0`, `drop = false`. -/
def default : Key :=
  { key := { ptr_ := none, length_ := 0, union_ := 0 }, drop := false }

/-- Embedding of `Key::new`: runs `utils::to_raw` (which can panic on a NUL
byte, modelled by `none`) and stores the returned pointer and size, with
`length_ = size as u32` and the union initialised to `id = 0`. -/
def new (key : List Nat) : Option Key :=
  match utils.to_raw key with
  | none => none
  | some (ptr, size) =>
    some { key := { ptr_ := some ptr, length_ := size % 2 ^ 32, union_ := 0 },
           drop := true }

/-- Embedding of `Key::set_id`: writes the `u32` id into the union field
(the same 4 bytes that hold the weight). -/
def set_id (k : Key) (id : Nat) : Key :=
  { k with key := { k.key with union_ := id % 2 ^ 32 } }

/-- Embedding of `Key::id`: reads the union field as a `u32`. -/
def id (k : Key) : Nat := k.key.union_

/-- Embedding of `Key::set_weight`: writes the `f32` weight (modelled by its
32-bit pattern) into the union field, overwriting any stored id. -/
def set_weight (k : Key) (weight : Nat) : Key :=
  { k with key := { k.key with union_ := weight % 2 ^ 32 } }

/-- Embedding of `Key::weight`: reads the union field as an `f32` bit
pattern. -/
def weight (k : Key) : Nat := k.key.union_

/-- Embedding of `Key::length`: returns the `length_` field. -/
def length (k : Key) : Nat := k.key.length_

/-- Embedding of `Key::from`: wraps an existing `marisa_Key` without taking
ownership (`drop = false`).  Named `ofRaw` because `from` is reserved in
Lean. -/
def ofRaw (existing : marisa_Key) : Key :=
  { key := existing, drop := false }

end Key

/-- Embedding of `marisa::Keyset`.  The wrapped `marisa_Keyset` is external
C++ state; modelled from the spec as the ordered sequence of records pushed
so far (`KeyCollection`): `size_` is the record count and the block storage
`key_blocks_` holds the records in fixed-size chunks (see `Keyset.atIdx`). -/
structure Keyset where
  records : List marisa_Key
deriving DecidableEq, Repr

namespace Keyset

/-- Embedding of `impl Default for Keyset` (`marisa_Keyset::new()`): an
empty collection. -/
def init : Keyset := { records := [] }

/-- The `size_` field of the wrapped keyset: the number of pushed records. -/
def size (ks : Keyset) : Nat := ks.records.length

/-- Embedding of `Keyset::push`: converts the key with `utils::to_raw`
(panicking, modelled by `none`, when the string holds a NUL byte) and calls
the external `push_back3(ptr, size, weight.unwrap_or(1.0))`.  Modelled from
the spec: `push_back3` appends a record holding the `size` bytes at `ptr`
(which include the appended NUL terminator) with the given weight and an
unassigned id.  Weights are `f32` bit patterns. -/
def push (ks : Keyset) (key : List Nat) (weight : Option Nat) : Option Keyset :=
  match utils.to_raw key with
  | none => none
  | some (ptr, sz) =>
    some { records := ks.records ++
      [{ ptr_ := some ptr, length_ := sz % 2 ^ 32,
         union_ := (weight.getD f32_bits_one) % 2 ^ 32 }] }

/-- Embedding of `Keyset::empty`: `size_ == 0`. -/
def empty (ks : Keyset) : Bool := ks.size == 0

/-- Embedding of `Keyset::num_keys`: returns `size_`. -/
def num_keys (ks : Keyset) : Nat := ks.size

/-- Embedding of `Keyset::reset`.  Modelled from the spec: the external
`marisa_Keyset::reset` releases all blocks and returns the collection to the
empty state. -/
def reset (_ks : Keyset) : Keyset := { records := [] }

/-- Embedding of `Keyset::clear`.  Modelled from the spec: the external
`marisa_Keyset::clear` likewise returns the collection to the empty state
(the spec declares it semantically identical to `reset`). -/
def clear (_ks : Keyset) : Keyset := { records := [] }

/-- The block size of the wrapped keyset's `key_blocks_` storage
(`marisa_Keyset_KEY_BLOCK_SIZE` in the generated bindings). -/
def KEY_BLOCK_SIZE : Nat := 4096

/-- Number of allocated blocks in `key_blocks_`.  Modelled from the spec:
the collection is "block-allocated in fixed-size chunks", so exactly enough
blocks exist to hold `size_` records. -/
def numBlocks (ks : Keyset) : Nat :=
  (ks.size + KEY_BLOCK_SIZE - 1) / KEY_BLOCK_SIZE

/-- Contents of global slot `i` of the block storage: the `i`-th pushed
record, or a default-constructed `marisa_Key` (null pointer, zero length,
zero union) for an allocated slot nothing was pushed into. -/
def slot (ks : Keyset) (i : Nat) : marisa_Key :=
  ks.records.getD i { ptr_ := none, length_ := 0, union_ := 0 }

/-- Possible outcomes of `Keyset::at`: a Rust slice bounds-check panic, an
undefined-behaviour read past the allocated block array, or a returned
`Key` view. -/
inductive AtResult where
  | panic : AtResult
  | ub : AtResult
  | view : Key → AtResult
deriving DecidableEq, Repr

/-- Embedding of `Keyset::at` (named `atIdx` because `at` is reserved in
Lean).  The source builds an outer slice over `key_blocks_.array_` with
claimed length `size_`, indexes it at `index / KEY_BLOCK_SIZE`, builds an
inner slice over that block with claimed length `size_`, and indexes it at
`index % KEY_BLOCK_SIZE`.  Each slice index panics when it reaches the
claimed length; an outer index at or past the allocated block count is an
out-of-bounds read (undefined behaviour); otherwise the addressed slot is
returned through `Key::from`. -/
def atIdx (ks : Keyset) (index : Nat) : AtResult :=
  let outer_index := index / KEY_BLOCK_SIZE
  let inner_index := index % KEY_BLOCK_SIZE
  if ks.size ≤ outer_index then .panic
  else if ks.numBlocks ≤ outer_index then .ub
  else if ks.size ≤ inner_index then .panic
  else .view (Key.ofRaw (ks.slot (outer_index * KEY_BLOCK_SIZE + inner_index)))

end Keyset

/-- Errors of the trie construction, from the spec's error taxonomy. -/
inductive BuildError where
  | EmptyInput : BuildError
  | DuplicateKey : BuildError
deriving DecidableEq, Repr

/-- Embedding of `marisa::Trie`.  The wrapped `marisa_Trie` is external C++
state; modelled from the spec as the set of keys the trie was built over. -/
structure Trie where
  keys : List (List Nat)
deriving DecidableEq, Repr

namespace Trie

/-- Embedding of `Trie::build`.  Modelled from the spec: the external
`marisa_Trie::build` fails with `EmptyInput` on a collection of zero
records, fails with `DuplicateKey` when the same byte string appears twice,
and otherwise produces a trie over the collection's byte strings. -/
def build (ks : Keyset) : Except BuildError Trie :=
  if ks.size = 0 then .error .EmptyInput
  else if (ks.records.map fun r => r.ptr_).Nodup then
    .ok { keys := ks.records.map fun r => (r.ptr_).getD [] }
  else .error .DuplicateKey

/-- Embedding of `Trie::num_keys`.  Modelled from the spec: the number of
keys the trie was built over. -/
def num_keys (t : Trie) : Nat := t.keys.length

end Trie

/-- Weight stored in the most recently pushed record, if any. -/
def Keyset.lastWeight (ks : Keyset) : Option Nat :=
  ks.records.getLast?.map fun r => r.union_

/-- A keyset holding 4097 pushed records: one more record than fits in a
single `KEY_BLOCK_SIZE` block, so the block storage spans two blocks. -/
def bigKeyset : Keyset :=
  { records := List.replicate 4097
      { ptr_ := some [102, 0], length_ := 2, union_ := f32_bits_one } }

/-- The default-constructed `marisa_Key` found in allocated slots nothing
was pushed into. -/
def junkSlot : marisa_Key := { ptr_ := none, length_ := 0, union_ := 0 }

/-- C1 counterexample: on a keyset of 4097 records (more than one block),
`at(4097)` is out of range (`4097 ≥ size()`) yet returns a `Key` view — of
a default-constructed slot — instead of failing. -/
theorem C1_at_counterexample :
    bigKeyset.size ≤ 4097 ∧
      bigKeyset.atIdx 4097 = .view (Key.ofRaw junkSlot) := by
  have hsize : bigKeyset.size = 4097 := List.length_replicate 4097 _
  refine ⟨le_of_eq hsize, ?_⟩
  have hslot : bigKeyset.slot 4097 = junkSlot := by
    unfold Keyset.slot junkSlot
    exact List.getD_eq_default _ _ (le_of_eq hsize)
  have hnb : bigKeyset.numBlocks = 2 := by
    rw [Keyset.numBlocks, hsize, Keyset.KEY_BLOCK_SIZE]
  simp only [Keyset.atIdx, hsize, hnb, Keyset.KEY_BLOCK_SIZE]
  norm_num [hslot]

/-- C1 (amended): `at(index)` with `index ≥ size()` is not checked against
`size()` and never yields a typed `OutOfRange` error: it panics on a Rust
slice bounds check, or reads past the allocated block array (undefined
behaviour), or returns a view of a default-constructed slot; it never
returns a pushed record. -/
theorem C1_at_out_of_range (ks : Keyset) (index : Nat) (h : ks.size ≤ index) :
    ks.atIdx index = .panic ∨ ks.atIdx index = .ub ∨
      ks.atIdx index = .view (Key.ofRaw junkSlot) := by
  unfold Keyset.atIdx
  by_cases h1 : ks.size ≤ index / Keyset.KEY_BLOCK_SIZE
  · left
    simp [h1]
  · by_cases h2 : ks.numBlocks ≤ index / Keyset.KEY_BLOCK_SIZE
    · right; left
      simp [h1, h2]
    · by_cases h3 : ks.size ≤ index % Keyset.KEY_BLOCK_SIZE
      · left
        simp [h1, h2, h3]
      · right; right
        simp only [if_neg h1, if_neg h2, if_neg h3]
        rw [Nat.div_add_mod' index Keyset.KEY_BLOCK_SIZE]
        have hslot : ks.slot index = junkSlot := by
          unfold Keyset.slot junkSlot
          exact List.getD_eq_default _ _ h
        rw [hslot]

/-- Witness for C1's amended theorem at the empty keyset and index 0. -/
theorem C1_at_out_of_range_witness :
    Keyset.init.size ≤ 0 ∧
      (Keyset.init.atIdx 0 = .panic ∨ Keyset.init.atIdx 0 = .ub ∨
        Keyset.init.atIdx 0 = .view (Key.ofRaw junkSlot)) :=
  ⟨by decide, C1_at_out_of_range Keyset.init 0 (by decide)⟩

/-- C2 counterexample: pushing the one-byte string `"\x00"` does not
succeed — `CString::new` rejects the interior NUL byte and the `expect` in
`utils::to_raw` panics, independent of allocation. -/
theorem C2_push_counterexample :
    Keyset.init.push [0] none = none := by
  decide

/-- C2 (amended): `push` succeeds for every byte string containing no NUL
byte and for every weight; a string containing a NUL byte makes `push`
panic in `utils::to_raw`, so byte content can abort `push` even with
allocation available. -/
theorem C2_push_total_without_nul (ks : Keyset) (key : List Nat)
    (weight : Option Nat) (h : (0 : Nat) ∉ key) :
    (ks.push key weight).isSome = true := by
  simp only [Keyset.push, utils.to_raw, if_neg h]
  rfl

/-- Witness for C2's amended theorem at the key "fu". -/
theorem C2_push_total_witness :
    (0 : Nat) ∉ [102, 117] ∧
      (Keyset.init.push [102, 117] none).isSome = true :=
  ⟨by decide, C2_push_total_without_nul Keyset.init [102, 117] none (by decide)⟩

/-- C3 counterexample: `Key::new` on the 4-byte string "koko" stores the
buffer with a NUL terminator appended and records length 5, not the byte
length 4 of the input. -/
theorem C3_new_counterexample :
    Key.new [107, 111, 107, 111] =
        some { key := { ptr_ := some [107, 111, 107, 111, 0], length_ := 5,
                        union_ := 0 }, drop := true } ∧
      (Key.new [107, 111, 107, 111]).map Key.length = some 5 ∧
      [107, 111, 107, 111].length = 4 := by
  decide

/-- C3 (amended): the stored buffer is the byte sequence of `s` with a NUL
terminator appended, and the recorded length equals the byte length of `s`
plus one — the terminator is appended and counted, exactly as the
repository's own `set_str` test asserts. -/
theorem C3_new_appends_and_counts_nul (s : List Nat) (h : (0 : Nat) ∉ s)
    (hlen : s.length + 1 < 2 ^ 32) :
    Key.new s =
      some { key := { ptr_ := some (s ++ [0]), length_ := s.length + 1,
                      union_ := 0 }, drop := true } := by
  simp only [Key.new, utils.to_raw, if_neg h]
  simp only [Nat.mod_eq_of_lt hlen]

/-- Witness for C3's amended theorem at the key "pes". -/
theorem C3_new_appends_witness :
    (0 : Nat) ∉ [112, 101, 115] ∧ [112, 101, 115].length + 1 < 2 ^ 32 ∧
      Key.new [112, 101, 115] =
        some { key := { ptr_ := some ([112, 101, 115] ++ [0]),
                        length_ := [112, 101, 115].length + 1,
                        union_ := 0 }, drop := true } :=
  ⟨by decide, by decide,
    C3_new_appends_and_counts_nul [112, 101, 115] (by decide) (by decide)⟩

/-- C5 counterexample: the weight is stored in the 4-byte union field, so
no encoding into the stored weight and decoding back can round-trip all
2^64 float64 values — float64 precision is necessarily lost. -/
theorem C5_no_float64_roundtrip :
    ¬ ∃ (enc : Fin (2 ^ 64) → Nat) (dec : Nat → Fin (2 ^ 64)),
        ∀ v, dec ((Key.default.set_weight (enc v)).weight) = v := by
  rintro ⟨enc, dec, h⟩
  have hw : ∀ v, (Key.default.set_weight (enc v)).weight = enc v % 2 ^ 32 :=
    fun v => rfl
  have hinj : Function.Injective
      (fun v : Fin (2 ^ 64) =>
        (⟨enc v % 2 ^ 32, Nat.mod_lt _ (by norm_num)⟩ : Fin (2 ^ 32))) := by
    intro a b hab
    have hval : enc a % 2 ^ 32 = enc b % 2 ^ 32 := congrArg Fin.val hab
    have hdec := congrArg dec hval
    rwa [← hw a, ← hw b, h a, h b] at hdec
  have hcard := Fintype.card_le_of_injective _ hinj
  simp only [Fintype.card_fin] at hcard
  norm_num at hcard

/-- C5 (amended): a record's weight is a 32-bit float (`f32`), not float64:
`set_weight` followed by `weight` returns every 32-bit pattern exactly, so
`f32` values round-trip without loss. -/
theorem C5_weight_roundtrip_f32 (k : Key) (w : Nat) (hw : w < 2 ^ 32) :
    (k.set_weight w).weight = w := by
  simp only [Key.set_weight, Key.weight]
  omega

/-- Witness for C5's amended theorem at the pattern of 0.5f32. -/
theorem C5_weight_roundtrip_witness :
    f32_bits_05 < 2 ^ 32 ∧ (Key.default.set_weight f32_bits_05).weight = f32_bits_05 :=
  ⟨by decide, C5_weight_roundtrip_f32 Key.default f32_bits_05 (by decide)⟩

/-- C10: for every keyset, `empty()` returns true if and only if
`num_keys()` equals 0. -/
theorem C10_empty_iff_num_keys_zero (ks : Keyset) :
    ks.empty = true ↔ ks.num_keys = 0 := by
  simp [Keyset.empty, Keyset.num_keys]

/-- C7: `clear()` and `reset()` are semantically identical: from any
starting state both leave the keyset in the same resulting state, which is
the empty state. -/
theorem C7_clear_eq_reset (ks : Keyset) :
    ks.clear = ks.reset ∧ (ks.clear).num_keys = 0 :=
  ⟨rfl, rfl⟩

/-- C6: `build` on a collection with zero records fails with the typed
error `EmptyInput`; no trie is produced. -/
theorem C6_build_empty_fails (ks : Keyset) (h : ks.size = 0) :
    Trie.build ks = .error .EmptyInput := by
  simp [Trie.build, h]

/-- Witness for C6 at the empty keyset. -/
theorem C6_build_empty_fails_witness :
    Keyset.init.size = 0 ∧ Trie.build Keyset.init = .error .EmptyInput :=
  ⟨rfl, C6_build_empty_fails Keyset.init rfl⟩

/-- C8: pushing "fufi" with weight 0.8, "fi" with weight 0.5 and "fu" with
no explicit weight into an empty keyset and building a trie succeeds, and
the trie's `num_keys()` equals 3. -/
theorem C8_example_builds_three_keys :
    ((Keyset.init.push [102, 117, 102, 105] (some f32_bits_08)).bind fun k1 =>
      (k1.push [102, 105] (some f32_bits_05)).bind fun k2 =>
        k2.push [102, 117] none).map (fun ks => (Trie.build ks).map Trie.num_keys)
      = some (.ok 3) := by
  rfl

/-- C9: the id and the weight share the single 4-byte union field: writing
a weight makes `id()` return that weight's 32-bit pattern reinterpreted as
a `u32`, and writing an id overwrites the stored weight symmetrically. -/
theorem C9_union_shared_storage (k : Key) (w i : Nat)
    (hw : w < 2 ^ 32) (hi : i < 2 ^ 32) :
    (k.set_weight w).id = w ∧ (k.set_id i).weight = i := by
  constructor
  · simp only [Key.set_weight, Key.id]
    omega
  · simp only [Key.set_id, Key.weight]
    omega

/-- Witness for C9 at the default key, weight pattern of 1.0 and id 7. -/
theorem C9_union_shared_storage_witness :
    f32_bits_one < 2 ^ 32 ∧ 7 < 2 ^ 32 ∧
      ((Key.default.set_weight f32_bits_one).id = f32_bits_one ∧
        (Key.default.set_id 7).weight = 7) :=
  ⟨by decide, by decide,
    C9_union_shared_storage Key.default f32_bits_one 7 (by decide) (by decide)⟩

/-- C4 (confirmed): pushing a key without an explicit weight stores the
record with the default weight 1.0 (its f32 pattern), and pushing with an
explicit weight stores exactly that weight. -/
theorem C4_push_weight_default_and_explicit (ks : Keyset) (key : List Nat)
    (w : Nat) (h : (0 : Nat) ∉ key) (hw : w < 2 ^ 32) :
    (ks.push key none).bind Keyset.lastWeight = some f32_bits_one ∧
      (ks.push key (some w)).bind Keyset.lastWeight = some w := by
  constructor
  · simp only [Keyset.push, utils.to_raw, if_neg h]
    simp [Keyset.lastWeight, f32_bits_one]
  · simp only [Keyset.push, utils.to_raw, if_neg h]
    simp [Keyset.lastWeight]
    omega

/-- Witness for C4 at the key "f" and the weight pattern 5. -/
theorem C4_push_weight_witness :
    (0 : Nat) ∉ [102] ∧ (5 : Nat) < 2 ^ 32 ∧
      ((Keyset.init.push [102] none).bind Keyset.lastWeight = some f32_bits_one ∧
        (Keyset.init.push [102] (some 5)).bind Keyset.lastWeight = some 5) :=
  ⟨by decide, by decide,
    C4_push_weight_default_and_explicit Keyset.init [102] 5 (by decide) (by decide)⟩
